import Mathlib

/-!
Shallow embedding of the layer scene-graph core of the skeditor repository
(src/lib/editor/view/layer-view.ts), together with theorems checking the
natural-language specification against it.

Coordinates are modelled with the rationals `ℚ`: the source computes with
JS numbers, and every claim under scrutiny is about the exact arithmetic
expressions the code builds, not about floating-point rounding. Division
follows Lean's convention `x / 0 = 0`; no claim exercises a degenerate
denominator.
-/

namespace Skeditor

/-- A 2D point, as in `src/lib/editor/base`. -/
structure Point where
  x : ℚ
  y : ℚ
  deriving DecidableEq, Repr

/-- A rectangle `(x, y, width, height)`, as in `src/lib/editor/base`. -/
structure Rect where
  x : ℚ
  y : ℚ
  width : ℚ
  height : ℚ
  deriving DecidableEq, Repr

/-- The slice of the document-layer record (`SkyBaseLayer`) that
`SkyBaseLayerView` reads: frame, rotation, flip flags, visibility, lock
state, mask flags and the resize-constraint flags. -/
structure LayerModel where
  frame : Rect
  rotation : ℚ
  isFlippedHorizontal : Bool
  isFlippedVertical : Bool
  isVisible : Bool
  isLocked : Bool
  hasClippingMask : Bool
  shouldBreakMaskChain : Bool
  fixedWidth : Bool
  fixedHeight : Bool
  snapLeft : Bool
  snapRight : Bool
  snapTop : Bool
  snapBottom : Bool
  deriving DecidableEq, Repr

/-- A layer model with every flag cleared; concrete instances in witnesses
are built from it with structure-update syntax. -/
def baseModel : LayerModel where
  frame := ⟨0, 0, 0, 0⟩
  rotation := 0
  isFlippedHorizontal := false
  isFlippedVertical := false
  isVisible := true
  isLocked := false
  hasClippingMask := false
  shouldBreakMaskChain := false
  fixedWidth := false
  fixedHeight := false
  snapLeft := false
  snapRight := false
  snapTop := false
  snapBottom := false

/-- `get visible() { return this.model.isVisible; }` -/
def LayerModel.visible (m : LayerModel) : Bool := m.isVisible

/-- `get interactive() { return this.visible && !this.model.isLocked; }` -/
def LayerModel.interactive (m : LayerModel) : Bool := m.isVisible && !m.isLocked

/-- `get isMask() { return this.model.hasClippingMask; }` -/
def LayerModel.isMask (m : LayerModel) : Bool := m.hasClippingMask

/-- The parent context that `calcInstanceChildScale` / `calcOffsetAfterScale`
read from `this.parent`: the parent's displayed frame (`parent.frame`,
called `instanceFrame` in the source) and the parent's model frame
(`parent.intrinsicFrame`, called `masterFrame`). -/
structure ParentCtx where
  frame : Rect
  intrinsicFrame : Rect
  deriving DecidableEq, Repr

/-- `get isFrameScaled() { return this.intrinsicFrame.width !== this.frame.width
|| this.intrinsicFrame.height !== this.frame.height; }` -/
def isFrameScaled (p : ParentCtx) : Bool :=
  p.intrinsicFrame.width != p.frame.width || p.intrinsicFrame.height != p.frame.height

/-- The `{ scaleX, scaleY }` record returned by `calcInstanceChildScale`. -/
structure ScalePair where
  scaleX : ℚ
  scaleY : ℚ
  deriving DecidableEq, Repr

/-- `calcInstanceChildScale()` of `SkyBaseLayerView`, transcribed from
src/lib/editor/view/layer-view.ts lines 237-301. `parent` stands for
`this.parent` (`none` when absent), `model` for `this.model`, and
`curFrame` for `this.frame` at the call. -/
def calcInstanceChildScale (parent : Option ParentCtx) (model : LayerModel)
    (curFrame : Rect) : Option ScalePair :=
  match parent with
  | none => none
  | some p =>
    if isFrameScaled p then
      let instanceFrame := p.frame
      let masterFrame := p.intrinsicFrame
      let instanceScaleX := instanceFrame.width / masterFrame.width
      let instanceScaleY := instanceFrame.height / masterFrame.height
      let scaleX0 : ℚ := if model.fixedWidth then 1 else instanceScaleX
      let scaleY0 : ℚ := if model.fixedHeight then 1 else instanceScaleY
      let scaleX : ℚ :=
        if model.snapLeft && model.snapRight then
          let rightLefMargin := masterFrame.width - curFrame.width
          let newWidth := instanceFrame.width - rightLefMargin
          newWidth / curFrame.width
        else if model.snapRight then
          let oldRight := masterFrame.width - curFrame.width - curFrame.x
          if !model.fixedWidth then
            (masterFrame.width * instanceScaleX - oldRight) / (masterFrame.width - oldRight)
          else scaleX0
        else if model.snapLeft then
          if !model.fixedWidth then
            (masterFrame.width * instanceScaleX - curFrame.x) / (masterFrame.width - curFrame.x)
          else scaleX0
        else scaleX0
      let scaleY : ℚ :=
        if model.snapTop && model.snapBottom then
          let verMargin := masterFrame.height - curFrame.height
          let newHeight := instanceFrame.height - verMargin
          newHeight / curFrame.height
        else if model.snapBottom then
          let oldBottom := masterFrame.height - curFrame.height - curFrame.y
          if !model.fixedHeight then
            (masterFrame.height * instanceScaleY - oldBottom) / (masterFrame.height - oldBottom)
          else scaleY0
        else if model.snapTop then
          if !model.fixedHeight then
            (masterFrame.height * instanceScaleY - curFrame.y) / (masterFrame.height - curFrame.y)
          else scaleY0
        else scaleY0
      some ⟨scaleX, scaleY⟩
    else none

/-- `calcOffsetAfterScale(newBounds, oldBounds)` of `SkyBaseLayerView`,
transcribed from src/lib/editor/view/layer-view.ts lines 303-368; returns
the `{ newX, newY }` pair. The source asserts `this.parent!`, so the
parent is taken directly. -/
def calcOffsetAfterScale (p : ParentCtx) (model : LayerModel)
    (newBounds oldBounds : Rect) : ℚ × ℚ :=
  let instanceFrame := p.frame
  let masterFrame := p.intrinsicFrame
  let curFrame := oldBounds
  let newX : ℚ :=
    if model.snapLeft && model.snapRight then
      curFrame.x
    else if model.snapRight then
      let oldRight := masterFrame.width - curFrame.width - curFrame.x
      instanceFrame.width - newBounds.width - oldRight
    else if model.snapLeft then
      curFrame.x
    else
      let oldCenter := curFrame.x + curFrame.width / 2
      let oldCenterRatio := oldCenter / masterFrame.width
      let newCenter := oldCenterRatio * instanceFrame.width
      newCenter - newBounds.width / 2
  let newY : ℚ :=
    if model.snapTop && model.snapBottom then
      curFrame.y
    else if model.snapBottom then
      let oldBottom := masterFrame.height - curFrame.height - curFrame.y
      instanceFrame.height - newBounds.height - oldBottom
    else if model.snapTop then
      curFrame.y
    else
      let oldCenter := curFrame.y + curFrame.height / 2
      let oldCenterRatio := oldCenter / masterFrame.height
      let newCenter := oldCenterRatio * instanceFrame.height
      newCenter - newBounds.height / 2
  (newX, newY)

/-- `commonLayoutSelf()` of `SkyBaseLayerView` (lines 373-391): clears
`scaledFrame` (so `this.frame = this.model.frame` during the computation),
computes the scale pair, builds a zero-origin frame of the scaled size,
fixes its origin with `calcOffsetAfterScale` and stores it. The returned
`Option Rect` is the resulting `scaledFrame` (`none` = left `undefined`). -/
def commonLayoutSelf (parent : Option ParentCtx) (model : LayerModel) : Option Rect :=
  match parent with
  | none => none
  | some p =>
    match calcInstanceChildScale (some p) model model.frame with
    | none => none
    | some s =>
      let oldFrame := model.frame
      let newW := s.scaleX * oldFrame.width
      let newH := s.scaleY * oldFrame.height
      let off := calcOffsetAfterScale p model ⟨0, 0, newW, newH⟩ oldFrame
      some ⟨off.1, off.2, newW, newH⟩

/-- `get frame() { return this.scaledFrame || this.model.frame; }` -/
def frameOf (scaledFrame : Option Rect) (model : LayerModel) : Rect :=
  scaledFrame.getD model.frame

/-! ### Claims C1-C4 and C8: the instance scaling algorithm -/

/-- Concrete parent for the C1 theorems: intrinsic 100x100 displayed at 140x100. -/
def c1p : ParentCtx := ⟨⟨0, 0, 140, 100⟩, ⟨0, 0, 100, 100⟩⟩

/-- Concrete child model for the C1 counterexample: `fixedWidth` set and both
horizontal snap flags set. -/
def c1m : LayerModel :=
  { baseModel with
    fixedWidth := true, snapLeft := true, snapRight := true,
    frame := ⟨10, 0, 80, 50⟩ }

/-- C1 fails as stated: for a child with `fixedWidth = true` and both
`snapLeft` and `snapRight` set (parent intrinsic width 100 shown at 140,
child width 80), `calcInstanceChildScale` returns `scaleX = 3/2`, not `1`:
the both-edges-snapped branch never consults `fixedWidth`. -/
theorem claim_C1_counterexample :
    (calcInstanceChildScale (some c1p) c1m c1m.frame).map ScalePair.scaleX = some (3 / 2) ∧
      ((3 : ℚ) / 2) ≠ 1 := by
  constructor
  · norm_num [calcInstanceChildScale, c1p, c1m, baseModel, isFrameScaled]
  · norm_num

/-- C1 amended: a child with `fixedWidth = true` (resp. `fixedHeight = true`)
keeps `scaleX = 1` (resp. `scaleY = 1`) for every snap combination except
when both opposing snap flags of that axis are set, in which case the
stretch branch overrides the scale regardless of the fixed flag; and
whenever a scale pair is produced, `commonLayoutSelf` still runs
`calcOffsetAfterScale` to recompute the child's origin on both axes. -/
theorem claim_C1_amended (p : ParentCtx) (model : LayerModel) (cf : Rect)
    (hp : isFrameScaled p = true) :
    (model.fixedWidth = true → (model.snapLeft && model.snapRight) = false →
      (calcInstanceChildScale (some p) model cf).map ScalePair.scaleX = some 1) ∧
    (model.fixedHeight = true → (model.snapTop && model.snapBottom) = false →
      (calcInstanceChildScale (some p) model cf).map ScalePair.scaleY = some 1) ∧
    (∀ r, commonLayoutSelf (some p) model = some r →
      ∃ s, calcInstanceChildScale (some p) model model.frame = some s ∧
        r.x = (calcOffsetAfterScale p model
          ⟨0, 0, s.scaleX * model.frame.width, s.scaleY * model.frame.height⟩ model.frame).1 ∧
        r.y = (calcOffsetAfterScale p model
          ⟨0, 0, s.scaleX * model.frame.width, s.scaleY * model.frame.height⟩ model.frame).2) := by
  refine ⟨?_, ?_, ?_⟩
  · intro hf hsnap
    cases hl : model.snapLeft <;> cases hr : model.snapRight <;>
      simp_all [calcInstanceChildScale, hp]
  · intro hf hsnap
    cases ht : model.snapTop <;> cases hb : model.snapBottom <;>
      simp_all [calcInstanceChildScale, hp]
  · intro r hr
    cases hcalc : calcInstanceChildScale (some p) model model.frame with
    | none => simp [commonLayoutSelf, hcalc] at hr
    | some s =>
      refine ⟨s, rfl, ?_, ?_⟩ <;>
      · simp only [commonLayoutSelf, hcalc] at hr
        cases hr
        rfl

/-- Witness for `claim_C1_amended` at a concrete input: `fixedWidth = true`
with only `snapLeft` set keeps `scaleX = 1`. -/
theorem claim_C1_witness :
    (calcInstanceChildScale (some c1p)
      { baseModel with fixedWidth := true, snapLeft := true, frame := ⟨10, 0, 80, 50⟩ }
      ⟨10, 0, 80, 50⟩).map ScalePair.scaleX = some 1 :=
  (claim_C1_amended c1p
    { baseModel with fixedWidth := true, snapLeft := true, frame := ⟨10, 0, 80, 50⟩ }
    ⟨10, 0, 80, 50⟩ (by decide)).1 (by decide) (by decide)

/-- C2: with both edges of an axis snapped, `calcInstanceChildScale` returns
`scale = (instanceFrame.size - (masterFrame.size - childFrame.size)) / childFrame.size`
on that axis, and `calcOffsetAfterScale` leaves the origin on that axis
unchanged. -/
theorem claim_C2 (p : ParentCtx) (model : LayerModel) (cf nb ob : Rect)
    (hp : isFrameScaled p = true) :
    (model.snapLeft = true → model.snapRight = true →
      (calcInstanceChildScale (some p) model cf).map ScalePair.scaleX =
        some ((p.frame.width - (p.intrinsicFrame.width - cf.width)) / cf.width) ∧
      (calcOffsetAfterScale p model nb ob).1 = ob.x) ∧
    (model.snapTop = true → model.snapBottom = true →
      (calcInstanceChildScale (some p) model cf).map ScalePair.scaleY =
        some ((p.frame.height - (p.intrinsicFrame.height - cf.height)) / cf.height) ∧
      (calcOffsetAfterScale p model nb ob).2 = ob.y) := by
  constructor
  · intro hl hr
    constructor
    · simp [calcInstanceChildScale, hp, hl, hr]
    · simp [calcOffsetAfterScale, hl, hr]
  · intro ht hb
    constructor
    · simp [calcInstanceChildScale, hp, ht, hb]
    · simp [calcOffsetAfterScale, ht, hb]

/-- Witness for `claim_C2`: the spec's own example, master width 100, child
`x=10, width=80`, instance width 140, gives `scaleX = 3/2` and an unchanged
origin `x = 10`. -/
theorem claim_C2_witness :
    (calcInstanceChildScale (some c1p)
      { baseModel with snapLeft := true, snapRight := true, frame := ⟨10, 0, 80, 100⟩ }
      ⟨10, 0, 80, 100⟩).map ScalePair.scaleX = some ((140 - (100 - 80)) / 80) ∧
    (calcOffsetAfterScale c1p
      { baseModel with snapLeft := true, snapRight := true, frame := ⟨10, 0, 80, 100⟩ }
      ⟨0, 0, 120, 100⟩ ⟨10, 0, 80, 100⟩).1 = 10 :=
  (claim_C2 c1p
    { baseModel with snapLeft := true, snapRight := true, frame := ⟨10, 0, 80, 100⟩ }
    ⟨10, 0, 80, 100⟩ ⟨0, 0, 120, 100⟩ ⟨10, 0, 80, 100⟩ (by decide)).1 rfl rfl

/-- C3: with only the trailing edge of an axis snapped and the axis not
fixed, `calcInstanceChildScale` returns
`scale = (masterFrame.size * instanceScale - trailingMargin) / (masterFrame.size - trailingMargin)`
with `trailingMargin = masterFrame.size - childFrame.size - childFrame.origin`,
and `calcOffsetAfterScale` sets the new origin to
`instanceFrame.size - newSize - trailingMargin`. -/
theorem claim_C3 (p : ParentCtx) (model : LayerModel) (cf nb ob : Rect)
    (hp : isFrameScaled p = true) :
    (model.snapRight = true → model.snapLeft = false → model.fixedWidth = false →
      (calcInstanceChildScale (some p) model cf).map ScalePair.scaleX =
        some ((p.intrinsicFrame.width * (p.frame.width / p.intrinsicFrame.width) -
            (p.intrinsicFrame.width - cf.width - cf.x)) /
          (p.intrinsicFrame.width - (p.intrinsicFrame.width - cf.width - cf.x))) ∧
      (calcOffsetAfterScale p model nb ob).1 =
        p.frame.width - nb.width - (p.intrinsicFrame.width - ob.width - ob.x)) ∧
    (model.snapBottom = true → model.snapTop = false → model.fixedHeight = false →
      (calcInstanceChildScale (some p) model cf).map ScalePair.scaleY =
        some ((p.intrinsicFrame.height * (p.frame.height / p.intrinsicFrame.height) -
            (p.intrinsicFrame.height - cf.height - cf.y)) /
          (p.intrinsicFrame.height - (p.intrinsicFrame.height - cf.height - cf.y))) ∧
      (calcOffsetAfterScale p model nb ob).2 =
        p.frame.height - nb.height - (p.intrinsicFrame.height - ob.height - ob.y)) := by
  constructor
  · intro hr hl hf
    constructor
    · simp [calcInstanceChildScale, hp, hr, hl, hf]
    · simp [calcOffsetAfterScale, hr, hl]
  · intro hb ht hf
    constructor
    · simp [calcInstanceChildScale, hp, hb, ht, hf]
    · simp [calcOffsetAfterScale, hb, ht]

/-- Witness for `claim_C3`: the spec's own example, master width 100, child
`x=10, width=50` (trailing margin 40), instance width 160: `scaleX = 2`
and new origin `160 - 100 - 40 = 20`. -/
theorem claim_C3_witness :
    (calcInstanceChildScale (some (⟨⟨0, 0, 160, 100⟩, ⟨0, 0, 100, 100⟩⟩ : ParentCtx))
      { baseModel with snapRight := true, frame := ⟨10, 0, 50, 100⟩ }
      ⟨10, 0, 50, 100⟩).map ScalePair.scaleX =
      some ((100 * (160 / 100) - (100 - 50 - 10)) / (100 - (100 - 50 - 10))) ∧
    (calcOffsetAfterScale (⟨⟨0, 0, 160, 100⟩, ⟨0, 0, 100, 100⟩⟩ : ParentCtx)
      { baseModel with snapRight := true, frame := ⟨10, 0, 50, 100⟩ }
      ⟨0, 0, 100, 100⟩ ⟨10, 0, 50, 100⟩).1 = 160 - 100 - (100 - 50 - 10) :=
  (claim_C3 ⟨⟨0, 0, 160, 100⟩, ⟨0, 0, 100, 100⟩⟩
    { baseModel with snapRight := true, frame := ⟨10, 0, 50, 100⟩ }
    ⟨10, 0, 50, 100⟩ ⟨0, 0, 100, 100⟩ ⟨10, 0, 50, 100⟩ (by decide)).1 rfl rfl rfl

/-- C4: with neither edge of an axis snapped, `calcOffsetAfterScale`
preserves the proportional center: the old frame center divided by the
master axis length, times the instance axis length, gives the new center,
and the new origin is `newCenter - newSize / 2`. -/
theorem claim_C4 (p : ParentCtx) (model : LayerModel) (nb ob : Rect) :
    (model.snapLeft = false → model.snapRight = false →
      (calcOffsetAfterScale p model nb ob).1 =
        (ob.x + ob.width / 2) / p.intrinsicFrame.width * p.frame.width - nb.width / 2) ∧
    (model.snapTop = false → model.snapBottom = false →
      (calcOffsetAfterScale p model nb ob).2 =
        (ob.y + ob.height / 2) / p.intrinsicFrame.height * p.frame.height - nb.height / 2) := by
  constructor
  · intro hl hr
    simp [calcOffsetAfterScale, hl, hr]
  · intro ht hb
    simp [calcOffsetAfterScale, ht, hb]

/-- Witness for `claim_C4`: the spec's own example, master width 100, child
`x=20, width=20`, instance width 200, proportional new width 40: new center
`60`, new origin `40`. -/
theorem claim_C4_witness :
    (calcOffsetAfterScale (⟨⟨0, 0, 200, 200⟩, ⟨0, 0, 100, 100⟩⟩ : ParentCtx)
      { baseModel with frame := ⟨20, 20, 20, 20⟩ }
      ⟨0, 0, 40, 40⟩ ⟨20, 20, 20, 20⟩).1 =
      (20 + 20 / 2) / 100 * 200 - 40 / 2 :=
  (claim_C4 ⟨⟨0, 0, 200, 200⟩, ⟨0, 0, 100, 100⟩⟩
    { baseModel with frame := ⟨20, 20, 20, 20⟩ }
    ⟨0, 0, 40, 40⟩ ⟨20, 20, 20, 20⟩).1 rfl rfl

/-- C8: with no parent, or a parent whose displayed frame size equals its
intrinsic frame size, `calcInstanceChildScale` returns no override,
`commonLayoutSelf` leaves `scaledFrame` absent, and the node's effective
frame is its intrinsic frame; the functions return normally (no error). -/
theorem claim_C8 (p : ParentCtx) (model : LayerModel) (cf : Rect)
    (hw : p.frame.width = p.intrinsicFrame.width)
    (hh : p.frame.height = p.intrinsicFrame.height) :
    calcInstanceChildScale none model cf = none ∧
    calcInstanceChildScale (some p) model cf = none ∧
    commonLayoutSelf none model = none ∧
    commonLayoutSelf (some p) model = none ∧
    frameOf (commonLayoutSelf (some p) model) model = model.frame := by
  have hs : isFrameScaled p = false := by
    simp [isFrameScaled, hw, hh]
  refine ⟨rfl, ?_, rfl, ?_, ?_⟩
  · simp [calcInstanceChildScale, hs]
  · simp [commonLayoutSelf, calcInstanceChildScale, hs]
  · simp [commonLayoutSelf, calcInstanceChildScale, hs, frameOf]

/-- Concrete parent for the C8 witness: displayed exactly at its intrinsic
100x100 size. -/
def c8p : ParentCtx := ⟨⟨5, 5, 100, 100⟩, ⟨0, 0, 100, 100⟩⟩

/-- Concrete child model for the C8 witness: every snap flag set. -/
def c8m : LayerModel :=
  { baseModel with
    snapLeft := true, snapRight := true, snapTop := true, snapBottom := true,
    frame := ⟨10, 10, 30, 30⟩ }

/-- Witness for `claim_C8`: a parent displayed exactly at its intrinsic
100x100 size yields no override for a child with every snap flag set. -/
theorem claim_C8_witness :
    calcInstanceChildScale (some c8p) c8m ⟨10, 10, 30, 30⟩ = none ∧
      commonLayoutSelf (some c8p) c8m = none := by
  have h := claim_C8 c8p c8m ⟨10, 10, 30, 30⟩ rfl rfl
  exact ⟨h.2.1, h.2.2.2.1⟩

/-! ### Claim C5: updateTransform -/

/-- A 2D affine matrix `[a c tx; b d ty]` in the column-style convention of
the transform library the source builds on. -/
structure Matrix23 where
  a : ℚ
  b : ℚ
  c : ℚ
  d : ℚ
  tx : ℚ
  ty : ℚ
  deriving DecidableEq, Repr

/-- Apply an affine matrix to a point. -/
def applyMat (m : Matrix23) (p : Point) : Point :=
  ⟨m.a * p.x + m.c * p.y + m.tx, m.b * p.x + m.d * p.y + m.ty⟩

/-- Matrix composition `m ∘ n` (first `n`, then `m`). -/
def composeMat (m n : Matrix23) : Matrix23 :=
  ⟨m.a * n.a + m.c * n.b, m.b * n.a + m.d * n.b,
   m.a * n.c + m.c * n.d, m.b * n.c + m.d * n.d,
   m.a * n.tx + m.c * n.ty + m.tx, m.b * n.tx + m.d * n.ty + m.ty⟩

/-- Translation matrix. -/
def translateM (x y : ℚ) : Matrix23 := ⟨1, 0, 0, 1, x, y⟩

/-- Scaling matrix. -/
def scaleM (sx sy : ℚ) : Matrix23 := ⟨sx, 0, 0, sy, 0, 0⟩

/-- Rotation matrix, with the cosine and sine of the angle given directly. -/
def rotM (cosv sinv : ℚ) : Matrix23 := ⟨cosv, sinv, -sinv, cosv, 0, 0⟩

/-- The per-view transform node: pivot, position, scale, rotation (radians)
and the derived local matrix. -/
structure Transform where
  pivot : Point
  position : Point
  scale : Point
  rotation : ℚ
  localTransform : Matrix23
  deriving DecidableEq, Repr

/-- Modelled from the spec: the Transform node is implemented in
`src/lib/editor/base`, which is not among the given sources; per the spec,
`updateLocalTransform()` recomputes the local affine matrix as
`translate(position) ∘ rotate(rotation) ∘ scale(scale) ∘ translate(-pivot)`.
The cosine and sine of the rotation angle are taken as function parameters,
since no claim depends on their values. -/
def updateLocalTransform (cosF sinF : ℚ → ℚ) (t : Transform) : Transform :=
  { t with
    localTransform :=
      composeMat (translateM t.position.x t.position.y)
        (composeMat (rotM (cosF t.rotation) (sinF t.rotation))
          (composeMat (scaleM t.scale.x t.scale.y)
            (translateM (-t.pivot.x) (-t.pivot.y)))) }

/-- `updateTransform()` of `SkyBaseLayerView`, transcribed from
src/lib/editor/view/layer-view.ts lines 207-224. `d2r` stands for the
external `degreeToRadian` helper, and `scaledFrame` for the node's current
`scaledFrame` (so `frame = this.frame`). -/
def updateTransform (d2r cosF sinF : ℚ → ℚ) (model : LayerModel)
    (scaledFrame : Option Rect) (t : Transform) : Transform :=
  let frame := frameOf scaledFrame model
  let scaleX : ℚ := if model.isFlippedHorizontal then -1 else 1
  let scaleY : ℚ := if model.isFlippedVertical then -1 else 1
  let radian := -1 * scaleX * scaleY * d2r model.rotation
  updateLocalTransform cosF sinF
    { t with
      pivot := ⟨frame.width / 2, frame.height / 2⟩,
      scale := ⟨scaleX, scaleY⟩,
      rotation := radian,
      position := ⟨frame.x + frame.width / 2, frame.y + frame.height / 2⟩ }

/-- C5: `updateTransform` sets the pivot to the center of the current frame
(scaled if present, else intrinsic), the position to that same frame center
in parent coordinates, the scale to `(-1 if flipped horizontally else 1,
-1 if flipped vertically else 1)`, the rotation to
`-scaleX * scaleY * degreeToRadian(model.rotation)`, and then calls
`updateLocalTransform`. -/
theorem claim_C5 (d2r cosF sinF : ℚ → ℚ) (model : LayerModel)
    (scaledFrame : Option Rect) (t : Transform) :
    updateTransform d2r cosF sinF model scaledFrame t =
      updateLocalTransform cosF sinF
        { t with
          pivot := ⟨(frameOf scaledFrame model).width / 2,
            (frameOf scaledFrame model).height / 2⟩,
          position := ⟨(frameOf scaledFrame model).x + (frameOf scaledFrame model).width / 2,
            (frameOf scaledFrame model).y + (frameOf scaledFrame model).height / 2⟩,
          scale := ⟨if model.isFlippedHorizontal then -1 else 1,
            if model.isFlippedVertical then -1 else 1⟩,
          rotation := -((if model.isFlippedHorizontal then (-1 : ℚ) else 1) *
            (if model.isFlippedVertical then (-1 : ℚ) else 1) *
            d2r model.rotation) } := by
  cases hh : model.isFlippedHorizontal <;> cases hv : model.isFlippedVertical <;>
    simp [updateTransform, hh, hv]

/-! ### Claim C9: save/restore balance of render() -/

/-- The drawing-surface operations issued by the render path. -/
inductive CanvasOp where
  | save
  | saveLayer
  | restore
  | concat
  | clipOp (i : Nat)
  | renderOp (i : Nat)
  deriving DecidableEq, Repr

/-- Run a list of canvas operations against a save-stack depth: `save` and
`saveLayer` push a scope, `restore` pops the most recently opened one
(release in reverse order of acquisition); `none` reports an underflow,
a `restore` with no matching open scope. -/
def runDepth : List CanvasOp → Nat → Option Nat
  | [], d => some d
  | CanvasOp.save :: ops, d => runDepth ops (d + 1)
  | CanvasOp.saveLayer :: ops, d => runDepth ops (d + 1)
  | CanvasOp.restore :: ops, d =>
    match d with
    | 0 => none
    | e + 1 => runDepth ops e
  | CanvasOp.concat :: ops, d => runDepth ops d
  | CanvasOp.clipOp _ :: ops, d => runDepth ops d
  | CanvasOp.renderOp _ :: ops, d => runDepth ops d

/-- Count of scope-opening operations (`save` and `saveLayer`). -/
def savesIn (l : List CanvasOp) : Nat :=
  l.countP fun op =>
    match op with
    | CanvasOp.save => true
    | CanvasOp.saveLayer => true
    | _ => false

/-- Count of scope-closing operations (`restore`). -/
def restoresIn (l : List CanvasOp) : Nat :=
  l.countP fun op =>
    match op with
    | CanvasOp.restore => true
    | _ => false

/-- The tri-state `layerPaint` cache: `undefined` (not yet computed),
`null` (computed, no paint needed) or a present paint. -/
inductive LayerPaintState where
  | undef
  | absent
  | present
  deriving DecidableEq, Repr

/-- Whether a resolved `layerPaint` is an actual paint (JS truthiness of
`this.layerPaint`). -/
def isPresent : LayerPaintState → Bool
  | LayerPaintState.present => true
  | _ => false

/-- The `layerPaint` resolution performed by `applyLayerStyle` (lines
552-565): if still `undefined`, `buildLayerPaint()` decides between a
paint and `null`; `buildModified` abstracts that decision (whether any of
opacity, blend mode, shadow or blur modified the paint). -/
def resolvePaint (lp : LayerPaintState) (buildModified : Bool) : LayerPaintState :=
  match lp with
  | LayerPaintState.undef =>
    if buildModified then LayerPaintState.present else LayerPaintState.absent
  | s => s

/-- `render()` of `SkyBaseLayerView` (lines 447-469) as the list of
drawing-surface operations it issues: `save`, transform `concat`, then if
not quick-rejected `applyLayerStyle` (a `saveLayer` when the resolved
paint is present) and the subclass `_render()` body, then `restore`, and
one more `restore` when a present layer paint was `saveLayer`-ed.
`reject` is the result of the external `skCanvas.quickReject` test and
`body` the trace of `_render()`. -/
def renderTrace (canQuickReject reject : Bool) (lp : LayerPaintState)
    (buildModified : Bool) (body : List CanvasOp) : List CanvasOp :=
  let shouldRender := !canQuickReject || !reject
  let lp1 := if shouldRender then resolvePaint lp buildModified else lp
  [CanvasOp.save, CanvasOp.concat] ++
    (if shouldRender then
      (if isPresent lp1 then [CanvasOp.saveLayer] else []) ++ body
    else []) ++
    [CanvasOp.restore] ++
    (if isPresent lp1 && shouldRender then [CanvasOp.restore] else [])

/-- Running a concatenation runs the pieces in sequence. -/
theorem runDepth_append (a b : List CanvasOp) (d : Nat) :
    runDepth (a ++ b) d = (runDepth a d).bind fun e => runDepth b e := by
  induction a generalizing d with
  | nil => simp [runDepth]
  | cons op rest ih =>
    cases op <;> simp only [List.cons_append, runDepth] <;>
      first
        | exact ih _
        | cases d with
          | zero => simp
          | succ e => exact ih e

/-- A trace that runs from depth `d` also runs one level deeper. -/
theorem runDepth_succ (l : List CanvasOp) :
    ∀ d e : Nat, runDepth l d = some e → runDepth l (d + 1) = some (e + 1) := by
  induction l with
  | nil => intro d e h; simp [runDepth] at h; simp [runDepth, h]
  | cons op rest ih =>
    intro d e h
    cases op <;> simp only [runDepth] at h ⊢ <;>
      first
        | exact ih _ _ h
        | cases d with
          | zero => exact absurd h (by simp)
          | succ f => exact ih f e h

/-- A successful run equates opened and closed scopes up to the depth change. -/
theorem runDepth_counts (l : List CanvasOp) :
    ∀ d e : Nat, runDepth l d = some e → d + savesIn l = e + restoresIn l := by
  induction l with
  | nil =>
    intro d e h
    simp [runDepth] at h
    simp [savesIn, restoresIn, h]
  | cons op rest ih =>
    intro d e h
    cases op <;>
      simp only [runDepth] at h <;>
      simp only [savesIn, restoresIn, List.countP_cons] at ih ⊢ <;>
      simp <;>
      first
        | omega
        | (have hx := ih _ _ h; omega)
        | cases d with
          | zero => exact absurd h (by simp)
          | succ f =>
            have := ih f e h
            omega

/-- C9: on every execution path of `render()` — quick-rejected or not,
layer paint present or not — the trace it issues opens as many scopes
(`save`/`saveLayer`) as it closes (`restore`), and closes them in reverse
order of acquisition: run against the save stack it never underflows and
returns the stack to the depth it found it. -/
theorem claim_C9 (canQuickReject reject : Bool) (lp : LayerPaintState)
    (buildModified : Bool) (body : List CanvasOp)
    (hbody : runDepth body 0 = some 0) :
    runDepth (renderTrace canQuickReject reject lp buildModified body) 0 = some 0 ∧
      savesIn (renderTrace canQuickReject reject lp buildModified body) =
        restoresIn (renderTrace canQuickReject reject lp buildModified body) := by
  have h1 : runDepth body 1 = some 1 := runDepth_succ body 0 0 hbody
  have h2 : runDepth body 2 = some 2 := runDepth_succ body 1 1 h1
  have hmain : runDepth (renderTrace canQuickReject reject lp buildModified body) 0 = some 0 := by
    unfold renderTrace
    cases canQuickReject <;> cases reject <;> cases buildModified <;> cases lp <;>
      simp [runDepth_append, runDepth, resolvePaint, isPresent, h1, h2]
  refine ⟨hmain, ?_⟩
  have hc := runDepth_counts _ 0 0 hmain
  omega

/-- Witness for `claim_C9` at a concrete input: a quick-reject-enabled,
rejected node with an unresolved layer paint and an empty body leaves the
stack depth unchanged. -/
theorem claim_C9_witness :
    runDepth (renderTrace true true LayerPaintState.undef true []) 0 = some 0 ∧
      savesIn (renderTrace true true LayerPaintState.undef true []) =
        restoresIn (renderTrace true true LayerPaintState.undef true []) :=
  claim_C9 true true LayerPaintState.undef true [] rfl

/-! ### Claim C6: mask scoping in renderChildren -/

/-- `renderChildren()` of `SkyBaseLayerView` (lines 157-185) as the list of
canvas operations it issues. `i` is the loop index and `isMasking` the
local flag of the source; a child's own `render()` call is the atomic
`renderOp i` (its internal balance is claim C9) and a mask child's
`tryClip()` is `clipOp i` inside the `save` opened for it. -/
def renderChildrenAux : List LayerModel → Nat → Bool → List CanvasOp
  | [], _, isMasking => if isMasking then [CanvasOp.restore] else []
  | c :: rest, i, isMasking =>
    ((if (c.isMask || c.shouldBreakMaskChain) && isMasking then [CanvasOp.restore] else []) ++
      (if c.visible then [CanvasOp.renderOp i] else []) ++
      (if c.isMask then [CanvasOp.save, CanvasOp.clipOp i] else [])) ++
    renderChildrenAux rest (i + 1)
      (if c.isMask then true
       else if (c.isMask || c.shouldBreakMaskChain) && isMasking then false
       else isMasking)

/-- The full `renderChildren()` trace: the loop starts with no mask active. -/
def renderChildrenTrace (cs : List LayerModel) : List CanvasOp :=
  renderChildrenAux cs 0 false

/-- Clip-stack semantics of the drawing surface: the stack holds one entry
per open save scope with the clips (mask indices) applied in it; `save`
duplicates the top entry, `clipOp` adds to the top entry, `restore` drops
it. Returns the final stack. -/
def execStack : List CanvasOp → List (List Nat) → List (List Nat)
  | [], st => st
  | CanvasOp.save :: ops, st => execStack ops (st.headD [] :: st)
  | CanvasOp.saveLayer :: ops, st => execStack ops (st.headD [] :: st)
  | CanvasOp.restore :: ops, st => execStack ops st.tail
  | CanvasOp.concat :: ops, st => execStack ops st
  | CanvasOp.clipOp j :: ops, st => execStack ops ((j :: st.headD []) :: st.tail)
  | CanvasOp.renderOp _ :: ops, st => execStack ops st

/-- Same clip-stack semantics, returning for each `renderOp` the child
index paired with the clips in effect while it renders. -/
def interpClips : List CanvasOp → List (List Nat) → List (Nat × List Nat)
  | [], _ => []
  | CanvasOp.save :: ops, st => interpClips ops (st.headD [] :: st)
  | CanvasOp.saveLayer :: ops, st => interpClips ops (st.headD [] :: st)
  | CanvasOp.restore :: ops, st => interpClips ops st.tail
  | CanvasOp.concat :: ops, st => interpClips ops st
  | CanvasOp.clipOp j :: ops, st => interpClips ops ((j :: st.headD []) :: st.tail)
  | CanvasOp.renderOp i :: ops, st => (i, st.headD []) :: interpClips ops st

/-- Executing a concatenation threads the stack through the pieces. -/
theorem execStack_append (a b : List CanvasOp) (st : List (List Nat)) :
    execStack (a ++ b) st = execStack b (execStack a st) := by
  induction a generalizing st with
  | nil => simp [execStack]
  | cons op rest ih => cases op <;> simp only [List.cons_append, execStack] <;> exact ih _

/-- Interpreting a concatenation concatenates the rendered-clip reports. -/
theorem interpClips_append (a b : List CanvasOp) (st : List (List Nat)) :
    interpClips (a ++ b) st = interpClips a st ++ interpClips b (execStack a st) := by
  induction a generalizing st with
  | nil => simp [interpClips, execStack]
  | cons op rest ih => cases op <;> simp only [List.cons_append, interpClips, execStack] <;>
      simp [ih]

/-- The mask run active after a block of consecutive siblings, in the
claim's terms: starting at absolute child index `i` with run `m` already
active, a mask child starts a new run at its own index, a
break-mask-chain child ends the current run, and any other child leaves
it untouched. -/
def clipCtx (m : Option Nat) (i : Nat) : List LayerModel → Option Nat
  | [] => m
  | c :: rest =>
    clipCtx (if c.isMask then some i else if c.shouldBreakMaskChain then none else m)
      (i + 1) rest

/-- The clip the claim says must be in effect while child `k` of `cs`
renders: the mask run established by the preceding siblings — a mask
applies to the subsequent siblings up to, and not including, the next
mask-or-break-chain sibling — and no clip from this chain at all when
child `k` is itself a mask or breaks the chain. -/
def clipSpecAt (cs : List LayerModel) (k : Nat) : Option Nat :=
  match cs.get? k with
  | none => none
  | some c =>
    if c.isMask || c.shouldBreakMaskChain then none
    else clipCtx none 0 (cs.take k)

/-- The claim-side list of (child index, active clips) pairs for the
visible children of `cs`, generalized over a starting index and an
incoming mask run for the induction. -/
def renderedClipsFrom (m : Option Nat) (i : Nat) (cs : List LayerModel) :
    List (Nat × List Nat) :=
  (List.range cs.length).filterMap fun k =>
    match cs.get? k with
    | none => none
    | some c =>
      if c.visible then
        some (i + k,
          (if c.isMask || c.shouldBreakMaskChain then none
           else clipCtx m i (cs.take k)).toList)
      else none

/-- Recurrence of `renderedClipsFrom` along the sibling list. -/
theorem renderedClipsFrom_cons (m : Option Nat) (i : Nat) (c : LayerModel)
    (rest : List LayerModel) :
    renderedClipsFrom m i (c :: rest) =
      (if c.visible then
        [(i, (if c.isMask || c.shouldBreakMaskChain then none else m).toList)]
       else []) ++
      renderedClipsFrom
        (if c.isMask then some i else if c.shouldBreakMaskChain then none else m)
        (i + 1) rest := by
  unfold renderedClipsFrom
  rw [show (c :: rest).length = rest.length + 1 from rfl, List.range_succ_eq_map,
    List.filterMap_cons, List.filterMap_map]
  rcases hv : c.visible with _ | _
  · simp only [List.get?_cons_zero, hv, Bool.false_eq_true, if_false, List.nil_append]
    congr 1
    funext k
    simp [Function.comp, clipCtx, Nat.add_assoc, Nat.one_add]
  · simp only [List.get?_cons_zero, hv, if_true, List.take_zero, clipCtx,
      Nat.add_zero, List.singleton_append]
    congr 1
    congr 1
    funext k
    simp [Function.comp, clipCtx, Nat.add_assoc, Nat.one_add]

/-- The clip stack corresponding to the loop's masking state: no open mask
scope, or one open scope holding the active mask's clip. -/
def maskStack : Option Nat → List (List Nat)
  | none => [[]]
  | some j => [[j], []]

/-- The operational trace of `renderChildren` reports exactly the
claim-side clip assignment, and leaves the clip stack as it found it. -/
theorem renderChildrenAux_spec (rest : List LayerModel) :
    ∀ (i : Nat) (m : Option Nat),
      interpClips (renderChildrenAux rest i m.isSome) (maskStack m) =
        renderedClipsFrom m i rest ∧
      execStack (renderChildrenAux rest i m.isSome) (maskStack m) = [[]] := by
  induction rest with
  | nil =>
    intro i m
    cases m <;>
      simp [renderChildrenAux, interpClips, execStack, renderedClipsFrom, maskStack]
  | cons c rest ih =>
    intro i m
    rw [renderedClipsFrom_cons]
    have h0 := ih (i + 1) none
    have h1 := ih (i + 1) (some i)
    rcases m with _ | j
    · cases hm : c.isMask <;> cases hb : c.shouldBreakMaskChain <;> cases hv : c.visible <;>
        simp_all [renderChildrenAux, interpClips_append, execStack_append,
          interpClips, execStack, maskStack]
    · have h2 := ih (i + 1) (some j)
      cases hm : c.isMask <;> cases hb : c.shouldBreakMaskChain <;> cases hv : c.visible <;>
        simp_all [renderChildrenAux, interpClips_append, execStack_append,
          interpClips, execStack, maskStack]

/-- C6: during `renderChildren`, each visible child renders under exactly
the clip of the mask run established by its preceding siblings — a mask's
clip applies to the subsequent siblings in paint order up to, and not
including, the next sibling that is itself a mask or breaks the mask
chain, and a mask-or-break child renders under no clip of this chain —
and after the last child every still-open mask clip scope is closed, so
the clip stack leaves the loop exactly as it entered it. -/
theorem claim_C6 (cs : List LayerModel) :
    interpClips (renderChildrenTrace cs) [[]] =
      (List.range cs.length).filterMap (fun k =>
        match cs.get? k with
        | none => none
        | some c => if c.visible then some (k, (clipSpecAt cs k).toList) else none) ∧
    execStack (renderChildrenTrace cs) [[]] = [[]] := by
  have h := renderChildrenAux_spec cs 0 none
  simp only [Option.isSome_none, maskStack] at h
  rw [renderChildrenTrace]
  refine ⟨?_, h.2⟩
  rw [h.1, renderedClipsFrom]
  congr 1
  funext k
  cases hg : cs.get? k <;>
    simp only [List.get?_eq_getElem?] at hg <;>
    simp [clipSpecAt, hg, List.get?_eq_getElem?]

/-- Witness for `claim_C6`, the worked example of the claim: for siblings
`[mask1, plain1, plain2, mask2, plain3]`, the clip of `mask1` (index 0)
covers `plain1` and `plain2` only, the clip of `mask2` (index 3) covers
`plain3` only, the masks render unclipped, and the stack is balanced. -/
theorem claim_C6_witness :
    interpClips (renderChildrenTrace
        [{ baseModel with hasClippingMask := true }, baseModel, baseModel,
         { baseModel with hasClippingMask := true }, baseModel]) [[]] =
      [(0, []), (1, [0]), (2, [0]), (3, []), (4, [3])] ∧
    execStack (renderChildrenTrace
        [{ baseModel with hasClippingMask := true }, baseModel, baseModel,
         { baseModel with hasClippingMask := true }, baseModel]) [[]] = [[]] := by
  have h := claim_C6
    [{ baseModel with hasClippingMask := true }, baseModel, baseModel,
     { baseModel with hasClippingMask := true }, baseModel]
  exact ⟨h.1.trans (by rfl), h.2⟩

/-! ### Claims C7 and C10: hit-testing -/

/-- The per-node state that `containsPoint` and `findView` read: visibility
and lock flags, the node's frame, and the inverse of the node's world
transform. `transform.worldTransform.applyInverse` is implemented in
`src/lib/editor/base` (not among the given sources); it is embedded as
explicit affine-matrix data `worldInv` carried by the node, applied with
`applyMat`. -/
structure NodeData where
  isVisible : Bool
  isLocked : Bool
  frame : Rect
  worldInv : Matrix23
  deriving DecidableEq, Repr

/-- `get interactive()` on the node's own flags. -/
def NodeData.interactive (d : NodeData) : Bool := d.isVisible && !d.isLocked

/-- `containsPoint(pt)` (lines 573-577): map the root-space point into
local space through the inverse world transform and test it strictly
against the frame extent. -/
def containsPointD (d : NodeData) (pt : Point) : Bool :=
  let q := applyMat d.worldInv pt
  decide (0 < q.x ∧ 0 < q.y ∧ q.x < d.frame.width ∧ q.y < d.frame.height)

/-- The point's local image lies exactly on the frame boundary. -/
def onEdge (d : NodeData) (pt : Point) : Bool :=
  let q := applyMat d.worldInv pt
  decide (q.x = 0 ∨ q.y = 0 ∨ q.x = d.frame.width ∨ q.y = d.frame.height)

mutual
/-- A scene-graph node: its hit-test data and its children in paint order. -/
inductive LayerTree : Type where
  | mk (data : NodeData) (children : LayerForest) : LayerTree
/-- A list of sibling nodes in paint order. -/
inductive LayerForest : Type where
  | nil : LayerForest
  | cons (head : LayerTree) (tail : LayerForest) : LayerForest
end

/-- The node's own hit-test data. -/
def LayerTree.data : LayerTree → NodeData
  | LayerTree.mk d _ => d

mutual
/-- `findView(pt)` (lines 586-599): if the point is inside this node,
search the children, last first, recursing only into interactive ones,
returning the first hit, else the node itself; if the point is outside,
return nothing without visiting children. -/
def findView : LayerTree → Point → Option LayerTree
  | LayerTree.mk d cs, pt =>
    if containsPointD d pt then
      match findViewChildren cs pt with
      | some v => some v
      | none => some (LayerTree.mk d cs)
    else none

/-- The `for (let i = this.children.length - 1; i >= 0; i--)` loop of
`findView`: later siblings (drawn on top) are examined first, so the tail
of the sibling list is searched before its head. -/
def findViewChildren : LayerForest → Point → Option LayerTree
  | LayerForest.nil, _ => none
  | LayerForest.cons c rest, pt =>
    match findViewChildren rest pt with
    | some v => some v
    | none => if c.data.interactive then findView c pt else none
end

mutual
/-- Claim-side characterization of the hit-test: the depth-first candidate
list of the search — children visited in reverse paint order, only
interactive children entered, each node listed after its descendants, and
nothing at all when the point lies outside the node's own frame. The
search result is the first element of this list. -/
def findViewSpec : LayerTree → Point → List LayerTree
  | LayerTree.mk d cs, pt =>
    if containsPointD d pt then
      findViewSpecChildren cs pt ++ [LayerTree.mk d cs]
    else []

/-- Candidates contributed by a sibling list, in reverse paint order. -/
def findViewSpecChildren : LayerForest → Point → List LayerTree
  | LayerForest.nil, _ => []
  | LayerForest.cons c rest, pt =>
    findViewSpecChildren rest pt ++
      (if c.data.interactive then findViewSpec c pt else [])
end

/-- The search over a sibling list agrees with the head of the candidate
list of that sibling list. -/
theorem findViewChildren_eq_head (f : LayerForest) :
    ∀ pt, findViewChildren f pt = (findViewSpecChildren f pt).head? :=
  @LayerForest.rec
    (fun t => ∀ pt, findView t pt = (findViewSpec t pt).head?)
    (fun g => ∀ pt, findViewChildren g pt = (findViewSpecChildren g pt).head?)
    (fun d cs ih pt => by
      simp only [findView, findViewSpec]
      cases hcont : containsPointD d pt
      · simp
      · simp only [if_true]
        rw [ih pt]
        cases hs : findViewSpecChildren cs pt with
        | nil => simp
        | cons v vs => simp)
    (fun _ => rfl)
    (fun c rest ihc ihrest pt => by
      simp only [findViewChildren, findViewSpecChildren]
      rw [ihrest pt]
      cases hs : findViewSpecChildren rest pt with
      | nil =>
        cases hi : c.data.interactive
        · simp [hi]
        · simp only [hi, if_true, List.nil_append, Option.none_or]
          exact ihc pt
      | cons v vs => simp)
    f

/-- C7: for every node and point, `findView` returns the head of the
depth-first candidate list: children are tested in reverse paint order and
entered only when interactive; the first (topmost) interactive descendant
containing the point wins, else the node itself when it contains the
point; and when the point is outside the node's own frame the result is
empty and the children are never visited. -/
theorem claim_C7 (t : LayerTree) (pt : Point) :
    findView t pt = (findViewSpec t pt).head? ∧
      (containsPointD t.data pt = false → findView t pt = none) := by
  cases t with
  | mk d cs =>
    have hmain : findView (LayerTree.mk d cs) pt =
        (findViewSpec (LayerTree.mk d cs) pt).head? := by
      simp only [findView, findViewSpec]
      cases hcont : containsPointD d pt
      · simp
      · simp only [if_true]
        rw [findViewChildren_eq_head cs pt]
        cases hs : findViewSpecChildren cs pt with
        | nil => simp
        | cons v vs => simp
    refine ⟨hmain, fun hout => ?_⟩
    simp only [findView, LayerTree.data] at hout ⊢
    simp [hout]

/-- Any view returned by the sibling-list search contains the point. -/
theorem findViewChildren_contains (f : LayerForest) :
    ∀ pt r, findViewChildren f pt = some r → containsPointD r.data pt = true :=
  @LayerForest.rec
    (fun t => ∀ pt r, findView t pt = some r → containsPointD r.data pt = true)
    (fun g => ∀ pt r, findViewChildren g pt = some r → containsPointD r.data pt = true)
    (fun d cs ih pt r hr => by
      simp only [findView] at hr
      cases hcont : containsPointD d pt
      · simp [hcont] at hr
      · simp only [hcont, if_true] at hr
        cases hcs : findViewChildren cs pt with
        | some v =>
          rw [hcs] at hr
          cases hr
          exact ih pt r hcs
        | none =>
          rw [hcs] at hr
          cases hr
          exact hcont)
    (fun pt r hr => by simp [findViewChildren] at hr)
    (fun c rest ihc ihrest pt r hr => by
      simp only [findViewChildren] at hr
      cases hrest : findViewChildren rest pt with
      | some v =>
        rw [hrest] at hr
        cases hr
        exact ihrest pt r hrest
      | none =>
        rw [hrest] at hr
        cases hi : c.data.interactive
        · simp [hi] at hr
        · simp only [hi, if_true] at hr
          exact ihc pt r hr)
    f

/-- Any view returned by `findView` contains the point. -/
theorem findView_contains (t : LayerTree) (pt : Point) (r : LayerTree)
    (h : findView t pt = some r) : containsPointD r.data pt = true := by
  cases t with
  | mk d cs =>
    simp only [findView] at h
    cases hcont : containsPointD d pt
    · simp [hcont] at h
    · simp only [hcont, if_true] at h
      cases hcs : findViewChildren cs pt with
      | some v =>
        rw [hcs] at h
        cases h
        exact findViewChildren_contains cs pt r hcs
      | none =>
        rw [hcs] at h
        cases h
        exact hcont

/-- C10: `containsPoint` uses strict inequalities, so a point whose local
image after the inverse world transform lies exactly on the frame boundary
(`x = 0`, `y = 0`, `x = width` or `y = height`) is reported as not
contained; consequently `findView` never returns a node for a point that
sits exactly on that node's own edge. -/
theorem claim_C10 (d : NodeData) (pt : Point) (hEdge : onEdge d pt = true)
    (t : LayerTree) (q : Point) (r : LayerTree) (hFind : findView t q = some r) :
    containsPointD d pt = false ∧ onEdge r.data q = false := by
  have notBoth : ∀ (e : NodeData) (p : Point),
      onEdge e p = true → containsPointD e p = false := by
    intro e p he
    simp only [onEdge, decide_eq_true_eq] at he
    simp only [containsPointD, decide_eq_false_iff_not]
    rintro ⟨ha, hb, hc2, hd2⟩
    rcases he with h | h | h | h <;> linarith
  refine ⟨notBoth d pt hEdge, ?_⟩
  have hc := findView_contains t q r hFind
  cases ho : onEdge r.data q
  · rfl
  · have h2 := notBoth r.data q ho
    rw [hc] at h2
    exact Bool.noConfusion h2

/-- The identity world transform, for the hit-test witnesses. -/
def idMat : Matrix23 := ⟨1, 0, 0, 1, 0, 0⟩

/-- A visible, unlocked 10x10 leaf at the origin of root space. -/
def wChild : LayerTree := LayerTree.mk ⟨true, false, ⟨0, 0, 10, 10⟩, idMat⟩ LayerForest.nil

/-- A visible, unlocked 20x20 root whose only child is `wChild`. -/
def wRoot : LayerTree := LayerTree.mk ⟨true, false, ⟨0, 0, 20, 20⟩, idMat⟩
  (LayerForest.cons wChild LayerForest.nil)

/-- Witness for `claim_C7` at concrete inputs: at `(5,5)` the search
returns the interactive child rather than the root, and at `(25,5)` —
outside the root — it returns nothing. -/
theorem claim_C7_witness :
    findView wRoot ⟨5, 5⟩ = some wChild ∧ findView wRoot ⟨25, 5⟩ = none := by
  constructor
  · exact (claim_C7 wRoot ⟨5, 5⟩).1.trans (by
      norm_num [findViewSpec, findViewSpecChildren, containsPointD, NodeData.interactive,
        applyMat, idMat, wRoot, wChild, LayerTree.data])
  · exact (claim_C7 wRoot ⟨25, 5⟩).2 (by
      norm_num [containsPointD, applyMat, idMat, wRoot, LayerTree.data])

/-- Witness for `claim_C10` at concrete inputs: the point `(0,5)` sits on
the left edge of a 10x10 node and is not contained, and the node `findView`
returns for the interior point `(5,5)` does not have that point on its
edge. -/
theorem claim_C10_witness :
    containsPointD (LayerTree.data wChild) ⟨0, 5⟩ = false ∧
      onEdge (LayerTree.data wChild) ⟨5, 5⟩ = false :=
  claim_C10 (LayerTree.data wChild) ⟨0, 5⟩
    (by norm_num [onEdge, applyMat, idMat, wChild, LayerTree.data])
    wChild ⟨5, 5⟩ wChild
    (by norm_num [findView, findViewChildren, containsPointD,
      applyMat, idMat, wChild, LayerTree.data])

end Skeditor
